import Mathlib

/-!
Verification development for the KODER extension's similarity-search and
usage-tracking logic.

The TypeScript sources are shallowly embedded as Lean definitions:

* JS strings become `List Char` (for document texts) or `String` (for ids);
  JS numbers used as character indices become `Int` (mirroring JS signed
  arithmetic), counters become `Nat`, and embedding-vector components are
  idealised as real numbers `ℝ`.
* The `while` loop of `splitTextIntoChunks` is embedded with an explicit
  fuel argument: the `Bool` component of the result is `true` when the loop
  exited by itself and `false` when the fuel ran out, so nontermination of
  the source loop is expressed as "the result is `(false, _)` for every fuel".
* `async` methods that can `throw` return `Except String _`.
* The JS `Map` backing `MemoryVectorStore` is embedded as an association
  list in insertion order (`Map.set` replaces in place, `Map.delete`
  removes the entry for the key); the SQLite table backing
  `SqliteVectorStore` is embedded as a list of rows in rowid order
  (`INSERT OR REPLACE` removes the conflicting row and appends).
* The byte-level float32 little-endian vector serialisation of the SQLite
  store is abstracted as an exact round trip on the idealised reals.
-/

set_option maxRecDepth 8000

/-! ### Similarity math (`VectorUtils.cosineSimilarity`, vector-store.ts) -/

/-- The three running sums of the single loop of `cosineSimilarity`:
`(dotProduct, Σ a i * a i, Σ b i * b i)` over the common indices of the two
vectors.  Real addition is associative and commutative, so accumulating by
recursion on the lists yields the same sums as the source's left-to-right
loop. -/
def simSums : List ℝ → List ℝ → ℝ × ℝ × ℝ
  | x :: a, y :: b =>
    let s := simSums a b
    (s.1 + x * y, s.2.1 + x * x, s.2.2 + y * y)
  | _, _ => (0, 0, 0)

/-- `VectorUtils.cosineSimilarity(a, b)`: throws when the lengths differ;
otherwise computes the dot product and both magnitudes in one pass, returns
`0` when either magnitude is `0`, and the normalised dot product otherwise. -/
noncomputable def cosineSimilarity (a b : List ℝ) : Except String ℝ :=
  if a.length ≠ b.length then .error "Vectors must have the same dimensions"
  else
    let s := simSums a b
    let aMagnitude := Real.sqrt s.2.1
    let bMagnitude := Real.sqrt s.2.2
    if aMagnitude = 0 ∨ bMagnitude = 0 then .ok 0
    else .ok (s.1 / (aMagnitude * bMagnitude))

/-! ### Chunker (`VectorService.splitTextIntoChunks`) -/

/-- JS `text.substring(start, end)`: both arguments are clamped to
`[0, text.length]` and swapped when out of order, then the slice between
them is returned. -/
def jsSubstring (s : List Char) (start stop : Int) : List Char :=
  let len : Int := s.length
  let a := min (max start 0) len
  let b := min (max stop 0) len
  let lo := min a b
  let hi := max a b
  (s.take hi.toNat).drop lo.toNat

/-- The `while (start < text.length)` loop of `splitTextIntoChunks`, with
explicit fuel.  Each iteration takes `end = min(start + chunkSize,
text.length)`, pushes `text.substring(start, end)`, sets
`start = end - overlap`, and breaks when `text.length - start < overlap`.
The `Bool` of the result is `true` iff the loop exited on its own before
the fuel ran out. -/
def splitLoop (text : List Char) (chunkSize overlap : Int) :
    Int → List (List Char) → Nat → Bool × List (List Char)
  | _, chunks, 0 => (false, chunks)
  | start, chunks, fuel + 1 =>
    if start < (text.length : Int) then
      let e := min (start + chunkSize) (text.length : Int)
      let chunks2 := chunks ++ [jsSubstring text start e]
      let start2 := e - overlap
      if (text.length : Int) - start2 < overlap then (true, chunks2)
      else splitLoop text chunkSize overlap start2 chunks2 fuel
    else (true, chunks)

/-- `VectorService.splitTextIntoChunks(text, chunkSize, overlap)`: a text no
longer than `chunkSize` is returned as a single chunk; otherwise the loop
above runs (here bounded by `fuel`). -/
def splitTextIntoChunks (text : List Char) (chunkSize overlap : Int) (fuel : Nat) :
    Bool × List (List Char) :=
  if (text.length : Int) ≤ chunkSize then (true, [text])
  else splitLoop text chunkSize overlap 0 [] fuel

/-! ### In-memory vector store (memory-vector-store.ts) -/

/-- The JS `Map` of `MemoryVectorStore`, as an association list in insertion
order.  An entry is `(id, (vector, metadata))`; the store is polymorphic in
the metadata type (`any` in the source). -/
abbrev MemStore (μ : Type) : Type := List (String × List ℝ × μ)

/-- JS `Map.set(k, v)`: replaces the value of an existing key in place,
otherwise appends a new entry. -/
def jsMapSet {μ : Type} : MemStore μ → String → List ℝ × μ → MemStore μ
  | [], k, v => [(k, v.1, v.2)]
  | (k2, e) :: rest, k, v =>
    if k2 == k then (k, v.1, v.2) :: rest else (k2, e) :: jsMapSet rest k v

/-- The dimension-mismatch message thrown by both store variants. -/
def dimensionMismatchMsg (expected got : Nat) : String :=
  "Vector dimensions mismatch: expected " ++ toString expected ++ ", got " ++ toString got

/-- `MemoryVectorStore.getVector(id)`: `Map.get`, or `null` for a missing id. -/
def MemoryVectorStore.getVector {μ : Type} (store : MemStore μ) (id : String) :
    Option (List ℝ × μ) :=
  (store.find? (fun e => e.1 == id)).map (·.2)

/-- `MemoryVectorStore.deleteVector(id)`: `Map.delete`, returning whether the
key existed.  Keys of a `Map` are unique, so deleting the key is removing
every entry bearing it. -/
def MemoryVectorStore.deleteVector {μ : Type} (store : MemStore μ) (id : String) :
    Bool × MemStore μ :=
  (store.any (fun e => e.1 == id), store.filter (fun e => !(e.1 == id)))

/-- `MemoryVectorStore.getAllIds()`: the key set, in iteration order. -/
def MemoryVectorStore.getAllIds {μ : Type} (store : MemStore μ) : List String :=
  store.map (·.1)

/-- `MemoryVectorStore.storeVector(id, vector, metadata)`: throws on a
dimension mismatch, otherwise `Map.set`. -/
def MemoryVectorStore.storeVector {μ : Type} (dimensions : Nat) (store : MemStore μ)
    (id : String) (vector : List ℝ) (metadata : μ) : Except String (MemStore μ) :=
  if vector.length ≠ dimensions then
    .error (dimensionMismatchMsg dimensions vector.length)
  else
    .ok (jsMapSet store id (vector, metadata))

/-- One element of a `search` result list. -/
structure SearchResult (μ : Type) where
  id : String
  similarity : ℝ
  vector : List ℝ
  metadata : μ

/-- The comparator `(a, b) => b.similarity - a.similarity` passed to
`Array.prototype.sort`: descending order of similarity. -/
def simOrder {μ : Type} (a b : SearchResult μ) : Prop :=
  b.similarity ≤ a.similarity

noncomputable instance {μ : Type} : DecidableRel (@simOrder μ) :=
  fun a b => inferInstanceAs (Decidable (b.similarity ≤ a.similarity))

instance {μ : Type} : IsTotal (SearchResult μ) simOrder :=
  ⟨fun a b => le_total b.similarity a.similarity⟩

instance {μ : Type} : IsTrans (SearchResult μ) simOrder :=
  ⟨fun _ _ _ hab hbc => le_trans hbc hab⟩

/-- The scan loop of `MemoryVectorStore.search`: for every stored entry,
compute the cosine similarity with the query (propagating its exception)
and keep the entry when the similarity reaches the threshold. -/
noncomputable def scanResults {μ : Type} (query : List ℝ) (threshold : ℝ) :
    MemStore μ → Except String (List (SearchResult μ))
  | [] => .ok []
  | (id, vec, md) :: rest =>
    match cosineSimilarity query vec with
    | .error e => .error e
    | .ok sim =>
      match scanResults query threshold rest with
      | .error e => .error e
      | .ok tail => .ok (if threshold ≤ sim then ⟨id, sim, vec, md⟩ :: tail else tail)

/-- `MemoryVectorStore.search(vector, limit, threshold)`: rejects a query of
the wrong dimensionality, otherwise scans every entry, sorts the retained
ones descending by similarity and returns at most `limit` of them. -/
noncomputable def MemoryVectorStore.search {μ : Type} (dimensions : Nat)
    (store : MemStore μ) (vector : List ℝ) (limit : Nat) (threshold : ℝ) :
    Except String (List (SearchResult μ)) :=
  if vector.length ≠ dimensions then
    .error (dimensionMismatchMsg dimensions vector.length)
  else
    match scanResults vector threshold store with
    | .error e => .error e
    | .ok results => .ok ((List.insertionSort simOrder results).take limit)

/-! ### SQLite vector store (sqlite-vector-store.ts) -/

/-- `serializeVector`: the float32 little-endian byte encoding, abstracted
as an exact round trip on the idealised reals. -/
def serializeVector (vector : List ℝ) : List ℝ := vector

/-- `deserializeVector`: inverse of `serializeVector` (exact in this
idealisation). -/
def deserializeVector (blob : List ℝ) : List ℝ := blob

/-- One row of the `vectors` table: `(id, vector blob, metadata)`, listed in
rowid order.  `created_at` plays no role in any claim and is omitted. -/
abbrev SqliteTable (μ : Type) : Type := List (String × List ℝ × μ)

/-- `SqliteVectorStore.storeVector`: throws on a dimension mismatch,
otherwise `INSERT OR REPLACE`, which deletes the row with the conflicting
primary key and appends the new row. -/
def SqliteVectorStore.storeVector {μ : Type} (dimensions : Nat) (rows : SqliteTable μ)
    (id : String) (vector : List ℝ) (metadata : μ) : Except String (SqliteTable μ) :=
  if vector.length ≠ dimensions then
    .error (dimensionMismatchMsg dimensions vector.length)
  else
    .ok (rows.filter (fun r => !(r.1 == id)) ++ [(id, serializeVector vector, metadata)])

/-- `SqliteVectorStore.getVector(id)`: `SELECT ... WHERE id = ?`, with the
blob deserialised; `null` when no row matches. -/
def SqliteVectorStore.getVector {μ : Type} (rows : SqliteTable μ) (id : String) :
    Option (List ℝ × μ) :=
  (rows.find? (fun r => r.1 == id)).map (fun r => (deserializeVector r.2.1, r.2.2))

/-- `SqliteVectorStore.deleteVector(id)`: `DELETE FROM vectors WHERE id = ?`,
reporting whether any row was affected. -/
def SqliteVectorStore.deleteVector {μ : Type} (rows : SqliteTable μ) (id : String) :
    Bool × SqliteTable μ :=
  (rows.any (fun r => r.1 == id), rows.filter (fun r => !(r.1 == id)))

/-- `SqliteVectorStore.getAllIds()`: `SELECT id FROM vectors`. -/
def SqliteVectorStore.getAllIds {μ : Type} (rows : SqliteTable μ) : List String :=
  rows.map (·.1)

/-- The scan of `SqliteVectorStore.search` over the full-table `SELECT`:
deserialise each row's blob, compute the cosine similarity with the query
(propagating its exception) and keep rows reaching the threshold. -/
noncomputable def sqliteScan {μ : Type} (query : List ℝ) (threshold : ℝ) :
    SqliteTable μ → Except String (List (SearchResult μ))
  | [] => .ok []
  | (id, blob, md) :: rest =>
    match cosineSimilarity query (deserializeVector blob) with
    | .error e => .error e
    | .ok sim =>
      match sqliteScan query threshold rest with
      | .error e => .error e
      | .ok tail =>
        .ok (if threshold ≤ sim then ⟨id, sim, deserializeVector blob, md⟩ :: tail else tail)

/-- `SqliteVectorStore.search(vector, limit, threshold)`: rejects a query of
the wrong dimensionality, otherwise loads every row, computes similarities
in memory, sorts descending and returns at most `limit` results. -/
noncomputable def SqliteVectorStore.search {μ : Type} (dimensions : Nat)
    (rows : SqliteTable μ) (vector : List ℝ) (limit : Nat) (threshold : ℝ) :
    Except String (List (SearchResult μ)) :=
  if vector.length ≠ dimensions then
    .error (dimensionMismatchMsg dimensions vector.length)
  else
    match sqliteScan vector threshold rows with
    | .error e => .error e
    | .ok results => .ok ((List.insertionSort simOrder results).take limit)

/-! ### Usage tracker (`ActionUsageTracker`) -/

/-- The mutable fields of `ActionUsageTracker`: five monotonic counters and
the session start timestamp (milliseconds since the epoch). -/
structure ActionUsageTracker where
  terminalCommandCount : Nat
  fileOperationCount : Nat
  browserOperationCount : Nat
  apiCallCount : Nat
  apiTokensUsed : Nat
  startTime : Int
deriving DecidableEq

/-- `recordTerminalCommand()`. -/
def recordTerminalCommand (t : ActionUsageTracker) : ActionUsageTracker :=
  { t with terminalCommandCount := t.terminalCommandCount + 1 }

/-- `recordFileOperation()`. -/
def recordFileOperation (t : ActionUsageTracker) : ActionUsageTracker :=
  { t with fileOperationCount := t.fileOperationCount + 1 }

/-- `recordBrowserOperation()`. -/
def recordBrowserOperation (t : ActionUsageTracker) : ActionUsageTracker :=
  { t with browserOperationCount := t.browserOperationCount + 1 }

/-- `recordApiCall(tokensUsed)`: increments the API-call counter and adds
`tokensUsed` to the cumulative token counter. -/
def recordApiCall (tokensUsed : Nat) (t : ActionUsageTracker) : ActionUsageTracker :=
  { t with
    apiCallCount := t.apiCallCount + 1
    apiTokensUsed := t.apiTokensUsed + tokensUsed }

/-- How many of the five counters differ between two tracker states. -/
def countersChanged (before after : ActionUsageTracker) : Nat :=
  (if before.terminalCommandCount = after.terminalCommandCount then 0 else 1)
    + (if before.fileOperationCount = after.fileOperationCount then 0 else 1)
    + (if before.browserOperationCount = after.browserOperationCount then 0 else 1)
    + (if before.apiCallCount = after.apiCallCount then 0 else 1)
    + (if before.apiTokensUsed = after.apiTokensUsed then 0 else 1)

/-! ### Document embedding (`VectorService.embedDocument`) -/

/-- JS `id.startsWith(pfx)`.  (Core's `String.startsWith` is byte-position
based and does not reduce in the kernel, so the equivalent character-list
predicate is used.) -/
def jsStartsWith (s pfx : String) : Bool := pfx.data.isPrefixOf s.data

/-- `document.positionAt(offset).line`: the offset is clamped to the text,
and the line of a position is the number of newline characters before it. -/
def lineAt (text : List Char) (pos : Int) : Int :=
  ((text.take (min pos.toNat text.length)).countP (fun c => c == '\n') : Nat)

/-- The loop of `getLineRangesForChunks`: walk the chunks keeping a running
character offset, record `(startLine, endLine)` for each chunk, advance the
offset by `chunk.length - overlap`, and break once the offset reaches the
end of the document. -/
def lineRangesLoop (text : List Char) (overlap : Int) :
    List (List Char) → Int → List (Int × Int)
  | [], _ => []
  | chunk :: rest, currentPos =>
    let r := (lineAt text currentPos, lineAt text (currentPos + chunk.length))
    let nextPos := currentPos + (chunk.length : Int) - overlap
    if (text.length : Int) ≤ nextPos then [r]
    else r :: lineRangesLoop text overlap rest nextPos

/-- `VectorService.getLineRangesForChunks(document, chunks)`. -/
def getLineRangesForChunks (text : List Char) (overlap : Int)
    (chunks : List (List Char)) : List (Int × Int) :=
  lineRangesLoop text overlap chunks 0

/-- The chunk id `doc:${document.fileName}:${startLine}-${endLine}`. -/
def mkChunkId (fileName : String) (startLine endLine : Int) : String :=
  "doc:" ++ fileName ++ ":" ++ toString startLine ++ "-" ++ toString endLine

/-- The metadata object stored with each chunk by `embedDocument`. -/
structure ChunkMetadata where
  path : String
  text : List Char
  startLine : Int
  endLine : Int
  language : String
  lastUpdated : String

/-- The purge loop of `embedDocument`: iterate over the snapshot of all
stored ids, deleting every id that starts with the document's prefix. -/
def purgeLoop (pfx : String) : List String → MemStore ChunkMetadata → MemStore ChunkMetadata
  | [], store => store
  | id :: rest, store =>
    purgeLoop pfx rest
      (if jsStartsWith id pfx then (MemoryVectorStore.deleteVector store id).2 else store)

/-- The insertion loop of `embedDocument`: for the i-th chunk, destructure
the i-th line range (a JS `TypeError` when `lineRanges[i]` is `undefined`),
embed the chunk and store it under its chunk id, propagating any
`storeVector` exception. -/
def insertChunks (dimensions : Nat) (embed : List Char → List ℝ)
    (fileName language now : String) :
    List (List Char) → List (Int × Int) → MemStore ChunkMetadata →
      Except String (MemStore ChunkMetadata)
  | [], _, store => .ok store
  | _ :: _, [], _ => .error "TypeError: cannot destructure undefined line range"
  | chunk :: cs, (s, e) :: rs, store =>
    let chunkId := mkChunkId fileName s e
    match MemoryVectorStore.storeVector dimensions store chunkId (embed chunk)
        ⟨fileName, chunk, s, e, language, now⟩ with
    | .error err => .error err
    | .ok store2 => insertChunks dimensions embed fileName language now cs rs store2

/-- `VectorService.embedDocument(document)` against the in-memory store:
skips texts shorter than 10 characters; chunks the text (`none` when the
chunking loop exceeds its fuel, i.e. diverges); skips when there are no
chunks; computes the line ranges; deletes every stored id starting with
`doc:${fileName}:`; then embeds and stores every chunk.  `embed` stands for
`getEmbedding`, `language` for `document.languageId` and `now` for
`new Date().toISOString()`. -/
def embedDocument (dimensions : Nat) (chunkSize overlap : Int) (fuel : Nat)
    (embed : List Char → List ℝ) (language now : String)
    (store : MemStore ChunkMetadata) (fileName : String) (text : List Char) :
    Option (Except String (MemStore ChunkMetadata)) :=
  if (text.length : Int) < 10 then some (.ok store)
  else
    match splitTextIntoChunks text chunkSize overlap fuel with
    | (false, _) => none
    | (true, chunks) =>
      if chunks.length = 0 then some (.ok store)
      else
        some (insertChunks dimensions embed fileName language now chunks
          (getLineRangesForChunks text overlap chunks)
          (purgeLoop ("doc:" ++ fileName ++ ":") (MemoryVectorStore.getAllIds store) store))

/-- The chunk ids generated by one `embedDocument` call: the i-th chunk is
stored under `mkChunkId fileName startLine endLine` of the i-th line range. -/
def embedChunkIds (chunkSize overlap : Int) (fuel : Nat) (fileName : String)
    (text : List Char) : List String :=
  let chunks := (splitTextIntoChunks text chunkSize overlap fuel).2
  (chunks.zip (getLineRangesForChunks text overlap chunks)).map
    (fun p => mkChunkId fileName p.2.1 p.2.2)

/-! ### Facts about the chunking loop on the spec's 2500-character scenario -/

/-- The 2500-character text of the spec's concrete chunking scenario. -/
def text2500 : List Char := List.replicate 2500 'a'

theorem text2500_length : (text2500.length : Int) = 2500 := by
  rw [text2500, List.length_replicate]; norm_num

theorem splitLoop_step_0 (chunks : List (List Char)) (n : Nat) :
    splitLoop text2500 1000 200 0 chunks (n + 1)
      = splitLoop text2500 1000 200 800 (chunks ++ [jsSubstring text2500 0 1000]) n := by
  rw [splitLoop, text2500_length]; norm_num

theorem splitLoop_step_800 (chunks : List (List Char)) (n : Nat) :
    splitLoop text2500 1000 200 800 chunks (n + 1)
      = splitLoop text2500 1000 200 1600 (chunks ++ [jsSubstring text2500 800 1800]) n := by
  rw [splitLoop, text2500_length]; norm_num

theorem splitLoop_step_1600 (chunks : List (List Char)) (n : Nat) :
    splitLoop text2500 1000 200 1600 chunks (n + 1)
      = splitLoop text2500 1000 200 2300 (chunks ++ [jsSubstring text2500 1600 2500]) n := by
  rw [splitLoop, text2500_length]; norm_num

theorem splitLoop_step_2300 (chunks : List (List Char)) (n : Nat) :
    splitLoop text2500 1000 200 2300 chunks (n + 1)
      = splitLoop text2500 1000 200 2300 (chunks ++ [jsSubstring text2500 2300 2500]) n := by
  rw [splitLoop, text2500_length]; norm_num

/-- Once `start` reaches `2300 = text.length - overlap`, every iteration
re-emits the window `[2300, 2500)` and returns to `start = 2300`: the loop
can never exit. -/
theorem splitLoop_2300_stuck (n : Nat) :
    ∀ chunks, (splitLoop text2500 1000 200 2300 chunks n).1 = false := by
  induction n with
  | zero => intro chunks; rfl
  | succ k ih => intro chunks; rw [splitLoop_step_2300]; exact ih _

theorem splitLoop_1600_stuck (n : Nat) :
    ∀ chunks, (splitLoop text2500 1000 200 1600 chunks n).1 = false := by
  cases n with
  | zero => intro chunks; rfl
  | succ k => intro chunks; rw [splitLoop_step_1600]; exact splitLoop_2300_stuck k _

theorem splitLoop_800_stuck (n : Nat) :
    ∀ chunks, (splitLoop text2500 1000 200 800 chunks n).1 = false := by
  cases n with
  | zero => intro chunks; rfl
  | succ k => intro chunks; rw [splitLoop_step_800]; exact splitLoop_1600_stuck k _

theorem splitLoop_0_stuck (n : Nat) :
    ∀ chunks, (splitLoop text2500 1000 200 0 chunks n).1 = false := by
  cases n with
  | zero => intro chunks; rfl
  | succ k => intro chunks; rw [splitLoop_step_0]; exact splitLoop_800_stuck k _

theorem splitTextIntoChunks_2500_eq_loop (fuel : Nat) :
    splitTextIntoChunks text2500 1000 200 fuel = splitLoop text2500 1000 200 0 [] fuel := by
  rw [splitTextIntoChunks, text2500_length]; norm_num

/-- C1: the claim says the loop always terminates when `overlap < chunkSize`.
It does not: the stop test `text.length - start < overlap` is evaluated
after `start = end - overlap` and is equivalent to `text.length < end`,
which is never true, so for a 2500-character text with `chunkSize = 1000`
and `overlap = 200` the loop runs out of any finite fuel — the source
`while` loop never terminates. -/
theorem splitTextIntoChunks_diverges (fuel : Nat) :
    (splitTextIntoChunks text2500 1000 200 fuel).1 = false := by
  rw [splitTextIntoChunks_2500_eq_loop]; exact splitLoop_0_stuck fuel []

theorem jsSubstring_length (s : List Char) (start stop : Int) (h1 : 0 ≤ start)
    (h2 : start ≤ stop) (h3 : stop ≤ (s.length : Int)) :
    (jsSubstring s start stop).length = (stop - start).toNat := by
  unfold jsSubstring
  have ha : min (max start 0) (s.length : Int) = start := by omega
  have hb : min (max stop 0) (s.length : Int) = stop := by omega
  simp only [ha, hb]
  have hlo : min start stop = start := by omega
  have hhi : max start stop = stop := by omega
  rw [hlo, hhi, List.length_drop, List.length_take]
  omega

/-- C2: on the 2500-character text with `chunkSize = 1000` and
`overlap = 200`, the claim expects exactly the chunks at offsets 0, 800 and
1600.  Running the loop with fuel 5 instead shows that after the chunk at
1600 it emits the 200-character window at offset 2300 again and again (the
chunk lengths are 1000, 1000, 900, 200, 200, …) and the `Bool` component
`false` records that the loop still has not exited. -/
theorem splitTextIntoChunks_2500_emits_extra_chunks :
    (splitTextIntoChunks text2500 1000 200 5).1 = false ∧
      (splitTextIntoChunks text2500 1000 200 5).2.map List.length
        = [1000, 1000, 900, 200, 200] := by
  have h : splitTextIntoChunks text2500 1000 200 5
      = (false, [jsSubstring text2500 0 1000, jsSubstring text2500 800 1800,
          jsSubstring text2500 1600 2500, jsSubstring text2500 2300 2500,
          jsSubstring text2500 2300 2500]) := by
    rw [splitTextIntoChunks_2500_eq_loop]
    rw [show (5 : Nat) = 4 + 1 from rfl, splitLoop_step_0]
    rw [show (4 : Nat) = 3 + 1 from rfl, splitLoop_step_800]
    rw [show (3 : Nat) = 2 + 1 from rfl, splitLoop_step_1600]
    rw [show (2 : Nat) = 1 + 1 from rfl, splitLoop_step_2300]
    rw [show (1 : Nat) = 0 + 1 from rfl, splitLoop_step_2300]
    rfl
  rw [h]
  refine ⟨rfl, ?_⟩
  have len : (text2500.length : Int) = 2500 := text2500_length
  rw [List.map_cons, List.map_cons, List.map_cons, List.map_cons, List.map_cons]
  rw [jsSubstring_length _ _ _ (by norm_num) (by norm_num) (by rw [len]; norm_num),
    jsSubstring_length _ _ _ (by norm_num) (by norm_num) (by rw [len]; norm_num),
    jsSubstring_length _ _ _ (by norm_num) (by norm_num) (by rw [len]),
    jsSubstring_length _ _ _ (by norm_num) (by norm_num) (by rw [len])]
  norm_num
  exact ⟨rfl, rfl, rfl⟩

/-! ### Usage-tracker claims -/

/-- C6 counterexample: `recordApiCall(100)` changes two of the five counters
(the API-call count and the cumulative token count), not exactly one, so
the claim that every `record*` call increments exactly one counter is false
at this input. -/
theorem recordApiCall_changes_two_counters :
    countersChanged ⟨0, 0, 0, 0, 0, 0⟩ (recordApiCall 100 ⟨0, 0, 0, 0, 0, 0⟩) = 2 := by
  decide

/-- C6 (amended): `recordTerminalCommand`, `recordFileOperation` and
`recordBrowserOperation` each increment exactly their own counter and leave
every other counter and the start timestamp unchanged; `recordApiCall`
increments the API-call count by one AND adds `tokensUsed` to the
cumulative token count (two counters when `tokensUsed > 0`), leaving the
remaining counters and the start timestamp unchanged. -/
theorem usageTracker_record_effects (t : ActionUsageTracker) (tokensUsed : Nat) :
    ((recordTerminalCommand t).terminalCommandCount = t.terminalCommandCount + 1
      ∧ (recordTerminalCommand t).fileOperationCount = t.fileOperationCount
      ∧ (recordTerminalCommand t).browserOperationCount = t.browserOperationCount
      ∧ (recordTerminalCommand t).apiCallCount = t.apiCallCount
      ∧ (recordTerminalCommand t).apiTokensUsed = t.apiTokensUsed
      ∧ (recordTerminalCommand t).startTime = t.startTime)
    ∧ ((recordFileOperation t).fileOperationCount = t.fileOperationCount + 1
      ∧ (recordFileOperation t).terminalCommandCount = t.terminalCommandCount
      ∧ (recordFileOperation t).browserOperationCount = t.browserOperationCount
      ∧ (recordFileOperation t).apiCallCount = t.apiCallCount
      ∧ (recordFileOperation t).apiTokensUsed = t.apiTokensUsed
      ∧ (recordFileOperation t).startTime = t.startTime)
    ∧ ((recordBrowserOperation t).browserOperationCount = t.browserOperationCount + 1
      ∧ (recordBrowserOperation t).terminalCommandCount = t.terminalCommandCount
      ∧ (recordBrowserOperation t).fileOperationCount = t.fileOperationCount
      ∧ (recordBrowserOperation t).apiCallCount = t.apiCallCount
      ∧ (recordBrowserOperation t).apiTokensUsed = t.apiTokensUsed
      ∧ (recordBrowserOperation t).startTime = t.startTime)
    ∧ ((recordApiCall tokensUsed t).apiCallCount = t.apiCallCount + 1
      ∧ (recordApiCall tokensUsed t).apiTokensUsed = t.apiTokensUsed + tokensUsed
      ∧ (recordApiCall tokensUsed t).terminalCommandCount = t.terminalCommandCount
      ∧ (recordApiCall tokensUsed t).fileOperationCount = t.fileOperationCount
      ∧ (recordApiCall tokensUsed t).browserOperationCount = t.browserOperationCount
      ∧ (recordApiCall tokensUsed t).startTime = t.startTime) :=
  ⟨⟨rfl, rfl, rfl, rfl, rfl, rfl⟩, ⟨rfl, rfl, rfl, rfl, rfl, rfl⟩,
    ⟨rfl, rfl, rfl, rfl, rfl, rfl⟩, ⟨rfl, rfl, rfl, rfl, rfl, rfl⟩⟩

/-! ### Cosine-similarity claims -/

theorem simSums_swap (a b : List ℝ) :
    simSums b a = ((simSums a b).1, (simSums a b).2.2, (simSums a b).2.1) := by
  induction a generalizing b with
  | nil => cases b <;> simp [simSums]
  | cons x a ih =>
    cases b with
    | nil => simp [simSums]
    | cons y b => simp [simSums, ih b, mul_comm]

/-- C7: for equal-length vectors, `cosineSimilarity` is symmetric.  (The
dot product is symmetric, the two magnitudes swap, the zero test and the
product in the denominator are order-insensitive.) -/
theorem cosineSimilarity_symm (a b : List ℝ) (h : a.length = b.length) :
    cosineSimilarity a b = cosineSimilarity b a := by
  unfold cosineSimilarity
  rw [simSums_swap a b]
  rw [if_neg (show ¬ a.length ≠ b.length from by simp [h])]
  rw [if_neg (show ¬ b.length ≠ a.length from by simp [h])]
  simp only
  by_cases hc : Real.sqrt (simSums a b).2.1 = 0 ∨ Real.sqrt (simSums a b).2.2 = 0
  · rw [if_pos hc, if_pos (Or.symm hc)]
  · rw [if_neg hc, if_neg (fun hor => hc (Or.symm hor)), mul_comm]

theorem simSums_sq1_zero (a b : List ℝ) (h : ∀ x ∈ a, x = 0) :
    (simSums a b).2.1 = 0 := by
  induction a generalizing b with
  | nil => cases b <;> simp [simSums]
  | cons x a ih =>
    cases b with
    | nil => simp [simSums]
    | cons y b =>
      have hx : x = 0 := h x (by simp)
      have ha : ∀ z ∈ a, z = 0 := fun z hz => h z (by simp [hz])
      simp [simSums, ih b ha, hx]

theorem simSums_sq2_zero (a b : List ℝ) (h : ∀ y ∈ b, y = 0) :
    (simSums a b).2.2 = 0 := by
  induction a generalizing b with
  | nil => cases b <;> simp [simSums]
  | cons x a ih =>
    cases b with
    | nil => simp [simSums]
    | cons y b =>
      have hy : y = 0 := h y (by simp)
      have hb : ∀ z ∈ b, z = 0 := fun z hz => h z (by simp [hz])
      simp [simSums, ih b hb, hy]

/-- C8: for equal-length vectors where either vector is zero (equivalently,
over the reals, has magnitude 0), `cosineSimilarity` takes the
zero-magnitude branch and returns `0` instead of dividing. -/
theorem cosineSimilarity_zero_magnitude (a b : List ℝ) (hlen : a.length = b.length)
    (h : (∀ x ∈ a, x = 0) ∨ (∀ y ∈ b, y = 0)) :
    cosineSimilarity a b = .ok 0 := by
  unfold cosineSimilarity
  rw [if_neg (by simp [hlen])]
  simp only
  cases h with
  | inl ha => rw [if_pos (Or.inl (by rw [simSums_sq1_zero a b ha, Real.sqrt_zero]))]
  | inr hb => rw [if_pos (Or.inr (by rw [simSums_sq2_zero a b hb, Real.sqrt_zero]))]

/-- C7 witness: symmetry at the concrete vectors `[1, 2]` and `[3, 4]`. -/
theorem cosineSimilarity_symm_witness :
    cosineSimilarity [1, 2] [3, 4] = cosineSimilarity [3, 4] [1, 2] :=
  cosineSimilarity_symm [1, 2] [3, 4] rfl

/-- C8 witness: the zero vector `[0, 0]` against `[3, 4]` yields `0`. -/
theorem cosineSimilarity_zero_magnitude_witness :
    cosineSimilarity [0, 0] [3, 4] = .ok 0 :=
  cosineSimilarity_zero_magnitude [0, 0] [3, 4] rfl (Or.inl (by simp))

/-! ### Store upsert and dimension-check claims -/

theorem find_jsMapSet_self {μ : Type} (store : MemStore μ) (id : String) (v : List ℝ × μ) :
    (jsMapSet store id v).find? (fun e => e.1 == id) = some (id, v.1, v.2) := by
  induction store with
  | nil => simp [jsMapSet]
  | cons hd rest ih =>
    obtain ⟨k2, e⟩ := hd
    rw [jsMapSet]
    by_cases hk : (k2 == id) = true
    · rw [if_pos hk]; simp
    · rw [if_neg hk]
      rw [List.find?_cons_of_neg _ (by simpa using hk)]
      exact ih

theorem find_jsMapSet_other {μ : Type} (store : MemStore μ) (id k : String)
    (v : List ℝ × μ) (hk : k ≠ id) :
    (jsMapSet store id v).find? (fun e => e.1 == k) = store.find? (fun e => e.1 == k) := by
  induction store with
  | nil =>
    rw [jsMapSet, List.find?_cons_of_neg _ (by simp [Ne.symm hk])]
  | cons hd rest ih =>
    obtain ⟨k2, e⟩ := hd
    rw [jsMapSet]
    by_cases h2 : (k2 == id) = true
    · rw [if_pos h2]
      have hk2 : k2 = id := by simpa using h2
      rw [List.find?_cons_of_neg _ (by simp [Ne.symm hk]),
        List.find?_cons_of_neg _ (by simp [hk2, Ne.symm hk])]
    · rw [if_neg h2]
      by_cases h3 : (k2 == k) = true
      · rw [List.find?_cons_of_pos _ (by simpa using h3),
          List.find?_cons_of_pos _ (by simpa using h3)]
      · rw [List.find?_cons_of_neg _ (by simpa using h3),
          List.find?_cons_of_neg _ (by simpa using h3)]
        exact ih

theorem find_insertOrReplace_self {μ : Type} (rows : SqliteTable μ) (id : String)
    (v : List ℝ) (m : μ) :
    (rows.filter (fun r => !(r.1 == id)) ++ [(id, v, m)]).find? (fun r => r.1 == id)
      = some (id, v, m) := by
  induction rows with
  | nil => simp
  | cons hd rest ih =>
    obtain ⟨k2, e⟩ := hd
    by_cases h2 : (k2 == id) = true
    · rw [List.filter_cons_of_neg (by simpa using h2)]
      exact ih
    · rw [List.filter_cons_of_pos (by simpa using h2), List.cons_append,
        List.find?_cons_of_neg _ (by simpa using h2)]
      exact ih

theorem find_insertOrReplace_other {μ : Type} (rows : SqliteTable μ) (id k : String)
    (v : List ℝ) (m : μ) (hk : k ≠ id) :
    (rows.filter (fun r => !(r.1 == id)) ++ [(id, v, m)]).find? (fun r => r.1 == k)
      = rows.find? (fun r => r.1 == k) := by
  induction rows with
  | nil => simp [Ne.symm hk]
  | cons hd rest ih =>
    obtain ⟨k2, e⟩ := hd
    by_cases h2 : (k2 == id) = true
    · have hk2 : k2 = id := by simpa using h2
      rw [List.filter_cons_of_neg (by simpa using h2),
        List.find?_cons_of_neg _ (by simp [hk2, Ne.symm hk])]
      exact ih
    · rw [List.filter_cons_of_pos (by simpa using h2), List.cons_append]
      by_cases h3 : (k2 == k) = true
      · rw [List.find?_cons_of_pos _ (by simpa using h3),
          List.find?_cons_of_pos _ (by simpa using h3)]
      · rw [List.find?_cons_of_neg _ (by simpa using h3),
          List.find?_cons_of_neg _ (by simpa using h3)]
        exact ih

/-- C4: for both store variants, `storeVector` with a vector of wrong
dimensionality fails with the dimension-mismatch error and returns no
mutated store (the throw happens before any write, so the contents are
untouched); with a matching length it succeeds and upserts: the stored
entry for `id` becomes `(vector, metadata)` and every other id's entry is
unchanged. -/
theorem storeVector_dimension_check {μ : Type} (dimensions : Nat) (store : MemStore μ)
    (rows : SqliteTable μ) (id : String) (vector : List ℝ) (metadata : μ) :
    (vector.length ≠ dimensions →
      MemoryVectorStore.storeVector dimensions store id vector metadata
          = .error (dimensionMismatchMsg dimensions vector.length) ∧
        SqliteVectorStore.storeVector dimensions rows id vector metadata
          = .error (dimensionMismatchMsg dimensions vector.length)) ∧
    (vector.length = dimensions →
      ∃ store2 rows2,
        MemoryVectorStore.storeVector dimensions store id vector metadata = .ok store2 ∧
        SqliteVectorStore.storeVector dimensions rows id vector metadata = .ok rows2 ∧
        MemoryVectorStore.getVector store2 id = some (vector, metadata) ∧
        SqliteVectorStore.getVector rows2 id = some (vector, metadata) ∧
        (∀ k, k ≠ id →
          MemoryVectorStore.getVector store2 k = MemoryVectorStore.getVector store k) ∧
        (∀ k, k ≠ id →
          SqliteVectorStore.getVector rows2 k = SqliteVectorStore.getVector rows k)) := by
  constructor
  · intro h
    rw [MemoryVectorStore.storeVector, SqliteVectorStore.storeVector, if_pos h, if_pos h]
    exact ⟨rfl, rfl⟩
  · intro h
    refine ⟨jsMapSet store id (vector, metadata),
      rows.filter (fun r => !(r.1 == id)) ++ [(id, serializeVector vector, metadata)],
      ?_, ?_, ?_, ?_, ?_, ?_⟩
    · rw [MemoryVectorStore.storeVector, if_neg (by simp [h])]
    · rw [SqliteVectorStore.storeVector, if_neg (by simp [h])]
    · rw [MemoryVectorStore.getVector, find_jsMapSet_self]; rfl
    · rw [SqliteVectorStore.getVector, find_insertOrReplace_self]; rfl
    · intro k hk
      rw [MemoryVectorStore.getVector, MemoryVectorStore.getVector,
        find_jsMapSet_other store id k _ hk]
    · intro k hk
      rw [SqliteVectorStore.getVector, SqliteVectorStore.getVector,
        find_insertOrReplace_other rows id k _ _ hk]

/-- C4 witness: a 1-component vector against a 4-dimensional store is
rejected by both variants with the dimension-mismatch error. -/
theorem storeVector_dimension_check_witness :
    MemoryVectorStore.storeVector 4 ([] : MemStore Unit) "a" [1] ()
        = .error (dimensionMismatchMsg 4 1) ∧
      SqliteVectorStore.storeVector 4 ([] : SqliteTable Unit) "a" [1] ()
        = .error (dimensionMismatchMsg 4 1) :=
  (storeVector_dimension_check 4 ([] : MemStore Unit) ([] : SqliteTable Unit)
    "a" [(1 : ℝ)] ()).1 (by simp)

/-- C9: for both store variants, `search` applies the same dimension check
to the query vector as `storeVector` does for stored vectors: a query of
the wrong length fails with the dimension-mismatch error before any entry
is scanned. -/
theorem search_dimension_check {μ : Type} (dimensions : Nat) (store : MemStore μ)
    (rows : SqliteTable μ) (vector : List ℝ) (limit : Nat) (threshold : ℝ)
    (h : vector.length ≠ dimensions) :
    MemoryVectorStore.search dimensions store vector limit threshold
        = .error (dimensionMismatchMsg dimensions vector.length) ∧
      SqliteVectorStore.search dimensions rows vector limit threshold
        = .error (dimensionMismatchMsg dimensions vector.length) := by
  rw [MemoryVectorStore.search, SqliteVectorStore.search, if_pos h, if_pos h]
  exact ⟨rfl, rfl⟩

/-- C9 witness: a 1-component query against 4-dimensional stores is
rejected by both variants. -/
theorem search_dimension_check_witness :
    MemoryVectorStore.search 4 ([] : MemStore Unit) [1] 10 0
        = .error (dimensionMismatchMsg 4 1) ∧
      SqliteVectorStore.search 4 ([] : SqliteTable Unit) [1] 10 0
        = .error (dimensionMismatchMsg 4 1) :=
  search_dimension_check 4 ([] : MemStore Unit) ([] : SqliteTable Unit)
    [(1 : ℝ)] 10 0 (by simp)

/-! ### Search result claims (limit, threshold, ordering) -/

theorem cosineSimilarity_ok (a b : List ℝ) (h : a.length = b.length) :
    ∃ s, cosineSimilarity a b = .ok s := by
  unfold cosineSimilarity
  rw [if_neg (show ¬ a.length ≠ b.length from by simp [h])]
  simp only
  by_cases hc : Real.sqrt (simSums a b).2.1 = 0 ∨ Real.sqrt (simSums a b).2.2 = 0
  · exact ⟨0, by rw [if_pos hc]⟩
  · exact ⟨_, by rw [if_neg hc]⟩

theorem scanResults_ok {μ : Type} (query : List ℝ) (threshold : ℝ) :
    ∀ store : MemStore μ, (∀ e ∈ store, e.2.1.length = query.length) →
      ∃ l, scanResults query threshold store = .ok l ∧ ∀ r ∈ l, threshold ≤ r.similarity := by
  intro store
  induction store with
  | nil => exact fun _ => ⟨[], rfl, by simp⟩
  | cons hd rest ih =>
    intro h
    obtain ⟨id, vec, md⟩ := hd
    obtain ⟨s, hs⟩ := cosineSimilarity_ok query vec (h (id, vec, md) (by simp)).symm
    obtain ⟨l, hl, hsim⟩ := ih fun e he => h e (List.mem_cons_of_mem _ he)
    have hstep : scanResults query threshold ((id, vec, md) :: rest)
        = Except.ok (if threshold ≤ s then ⟨id, s, vec, md⟩ :: l else l) := by
      rw [scanResults, hs, hl]
    by_cases hth : threshold ≤ s
    · rw [if_pos hth] at hstep
      refine ⟨_, hstep, ?_⟩
      intro r hr
      rcases List.mem_cons.1 hr with rfl | hr2
      · exact hth
      · exact hsim r hr2
    · rw [if_neg hth] at hstep
      exact ⟨l, hstep, hsim⟩

theorem sqliteScan_ok {μ : Type} (query : List ℝ) (threshold : ℝ) :
    ∀ rows : SqliteTable μ, (∀ r ∈ rows, r.2.1.length = query.length) →
      ∃ l, sqliteScan query threshold rows = .ok l ∧ ∀ r ∈ l, threshold ≤ r.similarity := by
  intro rows
  induction rows with
  | nil => exact fun _ => ⟨[], rfl, by simp⟩
  | cons hd rest ih =>
    intro h
    obtain ⟨id, blob, md⟩ := hd
    obtain ⟨s, hs⟩ := cosineSimilarity_ok query (deserializeVector blob)
      (h (id, blob, md) (by simp)).symm
    obtain ⟨l, hl, hsim⟩ := ih fun e he => h e (List.mem_cons_of_mem _ he)
    have hstep : sqliteScan query threshold ((id, blob, md) :: rest)
        = Except.ok (if threshold ≤ s then ⟨id, s, deserializeVector blob, md⟩ :: l else l) := by
      rw [sqliteScan, hs, hl]
    by_cases hth : threshold ≤ s
    · rw [if_pos hth] at hstep
      refine ⟨_, hstep, ?_⟩
      intro r hr
      rcases List.mem_cons.1 hr with rfl | hr2
      · exact hth
      · exact hsim r hr2
    · rw [if_neg hth] at hstep
      exact ⟨l, hstep, hsim⟩

/-- C5: for both store variants, for a query of the configured
dimensionality against a store whose vectors all have that dimensionality
(the store invariant maintained by `storeVector`), `search` succeeds and
the result list has at most `limit` elements, every returned similarity
reaches the threshold, and the results are sorted in descending order of
similarity. -/
theorem search_limit_threshold_sorted {μ : Type} (dimensions : Nat)
    (store : MemStore μ) (rows : SqliteTable μ) (query : List ℝ) (limit : Nat)
    (threshold : ℝ) (hq : query.length = dimensions)
    (hstore : ∀ e ∈ store, e.2.1.length = dimensions)
    (hrows : ∀ r ∈ rows, r.2.1.length = dimensions) :
    (∃ res, MemoryVectorStore.search dimensions store query limit threshold = .ok res ∧
      res.length ≤ limit ∧ (∀ r ∈ res, threshold ≤ r.similarity) ∧
      List.Sorted simOrder res) ∧
    (∃ res, SqliteVectorStore.search dimensions rows query limit threshold = .ok res ∧
      res.length ≤ limit ∧ (∀ r ∈ res, threshold ≤ r.similarity) ∧
      List.Sorted simOrder res) := by
  constructor
  · rw [MemoryVectorStore.search, if_neg (show ¬ query.length ≠ dimensions from by simp [hq])]
    obtain ⟨l, hl, hsim⟩ := scanResults_ok query threshold store
      (fun e he => by rw [hstore e he, hq])
    rw [hl]
    refine ⟨_, rfl, List.length_take_le _ _, ?_, ?_⟩
    · intro r hr
      have hr2 : r ∈ List.insertionSort simOrder l := (List.take_sublist _ _).mem hr
      exact hsim r ((List.perm_insertionSort simOrder l).mem_iff.mp hr2)
    · exact List.Pairwise.sublist (List.take_sublist _ _)
        (List.sorted_insertionSort simOrder l)
  · rw [SqliteVectorStore.search, if_neg (show ¬ query.length ≠ dimensions from by simp [hq])]
    obtain ⟨l, hl, hsim⟩ := sqliteScan_ok query threshold rows
      (fun r hr => by rw [hrows r hr, hq])
    rw [hl]
    refine ⟨_, rfl, List.length_take_le _ _, ?_, ?_⟩
    · intro r hr
      have hr2 : r ∈ List.insertionSort simOrder l := (List.take_sublist _ _).mem hr
      exact hsim r ((List.perm_insertionSort simOrder l).mem_iff.mp hr2)
    · exact List.Pairwise.sublist (List.take_sublist _ _)
        (List.sorted_insertionSort simOrder l)

/-- C5 witness: one-dimensional stores holding a single unit vector,
queried with the matching dimensionality. -/
theorem search_limit_threshold_sorted_witness :
    (∃ res, MemoryVectorStore.search 1 [("a", [1], ())] [1] 1 0 = .ok res ∧
      res.length ≤ 1 ∧ (∀ r ∈ res, (0 : ℝ) ≤ r.similarity) ∧
      List.Sorted simOrder res) ∧
    (∃ res, SqliteVectorStore.search 1 [("a", [1], ())] [1] 1 0 = .ok res ∧
      res.length ≤ 1 ∧ (∀ r ∈ res, (0 : ℝ) ≤ r.similarity) ∧
      List.Sorted simOrder res) :=
  search_limit_threshold_sorted 1 [("a", [(1 : ℝ)], ())] [("a", [(1 : ℝ)], ())]
    [(1 : ℝ)] 1 0 rfl (by simp) (by simp)

/-! ### `embedDocument` claims -/

/-- A 1-dimensional embedding function used in concrete scenarios. -/
def exEmbed : List Char → List ℝ := fun _ => [0]

/-- First call's document text: 25 characters. -/
def exText1 : List Char := List.replicate 25 'a'

/-- Second call's document text: 2 characters, below the 10-character
minimum of `embedDocument`. -/
def exText2 : List Char := ['h', 'i']

/-- The store produced by embedding `exText1` (file "f", `chunkSize = 10`,
`overlap = 0`): three chunks all on line 0, so all three `storeVector`
calls upsert the single id `doc:f:0-0`, whose surviving metadata is that of
the last chunk `[20, 25)`. -/
def exStore1 : MemStore ChunkMetadata :=
  [("doc:f:0-0", [0], ⟨"f", List.replicate 5 'a', 0, 0, "ts", "t"⟩)]

/-- C10: a document whose text is shorter than 10 characters is skipped
outright: `embedDocument` returns with the store untouched, before the
prefix purge, so vectors of an earlier longer version of the document
remain stored. -/
theorem embedDocument_skips_short_documents (dimensions : Nat) (chunkSize overlap : Int)
    (fuel : Nat) (embed : List Char → List ℝ) (language now : String)
    (store : MemStore ChunkMetadata) (fileName : String) (text : List Char)
    (h : (text.length : Int) < 10) :
    embedDocument dimensions chunkSize overlap fuel embed language now store fileName text
      = some (.ok store) := by
  rw [embedDocument, if_pos h]

/-- C10 witness: a 2-character document against a store still holding a
chunk of the document's earlier, longer version. -/
theorem embedDocument_skips_short_documents_witness :
    embedDocument 1 10 0 5 exEmbed "ts" "t" exStore1 "f" exText2 = some (.ok exStore1) :=
  embedDocument_skips_short_documents 1 10 0 5 exEmbed "ts" "t" exStore1 "f" exText2
    (by decide)

theorem mem_getAllIds_delete {μ : Type} (store : MemStore μ) (id x : String)
    (h : x ∈ MemoryVectorStore.getAllIds (MemoryVectorStore.deleteVector store id).2) :
    x ∈ MemoryVectorStore.getAllIds store ∧ x ≠ id := by
  simp only [MemoryVectorStore.getAllIds, MemoryVectorStore.deleteVector,
    List.mem_map] at h ⊢
  obtain ⟨e, he, rfl⟩ := h
  have hf := List.mem_filter.1 he
  refine ⟨⟨e, hf.1, rfl⟩, ?_⟩
  simpa using hf.2

/-- After the purge loop over a snapshot `ids` of the stored keys, every
surviving key was already stored, and a key with the document prefix can
only survive if it was missing from the snapshot. -/
theorem purgeLoop_ids (pfx : String) :
    ∀ (ids : List String) (store : MemStore ChunkMetadata) (x : String),
      x ∈ MemoryVectorStore.getAllIds (purgeLoop pfx ids store) →
        x ∈ MemoryVectorStore.getAllIds store ∧ (jsStartsWith x pfx = true → x ∉ ids) := by
  intro ids
  induction ids with
  | nil => exact fun store x h => ⟨h, fun _ => by simp⟩
  | cons id rest ih =>
    intro store x h
    rw [purgeLoop] at h
    by_cases hid : jsStartsWith id pfx = true
    · rw [if_pos hid] at h
      obtain ⟨h1, h2⟩ := ih _ x h
      obtain ⟨h3, h4⟩ := mem_getAllIds_delete store id x h1
      refine ⟨h3, fun hx => ?_⟩
      simp only [List.mem_cons, not_or]
      exact ⟨h4, h2 hx⟩
    · rw [if_neg hid] at h
      obtain ⟨h1, h2⟩ := ih _ x h
      refine ⟨h1, fun hx => ?_⟩
      simp only [List.mem_cons, not_or]
      refine ⟨?_, h2 hx⟩
      rintro rfl
      exact hid hx

theorem mem_getAllIds_jsMapSet {μ : Type} (store : MemStore μ) (id : String)
    (v : List ℝ × μ) :
    ∀ x, x ∈ MemoryVectorStore.getAllIds (jsMapSet store id v) →
      x = id ∨ x ∈ MemoryVectorStore.getAllIds store := by
  induction store with
  | nil =>
    intro x h
    rw [jsMapSet] at h
    simp only [MemoryVectorStore.getAllIds, List.map_cons, List.map_nil,
      List.mem_singleton] at h
    exact Or.inl h
  | cons hd rest ih =>
    obtain ⟨k2, e⟩ := hd
    intro x h
    rw [jsMapSet] at h
    by_cases h2 : (k2 == id) = true
    · rw [if_pos h2] at h
      simp only [MemoryVectorStore.getAllIds, List.map_cons, List.mem_cons] at h ⊢
      rcases h with rfl | h
      · exact Or.inl rfl
      · exact Or.inr (Or.inr h)
    · rw [if_neg h2] at h
      simp only [MemoryVectorStore.getAllIds, List.map_cons, List.mem_cons] at h ⊢
      rcases h with rfl | h
      · exact Or.inr (Or.inl rfl)
      · rcases ih x h with h3 | h3
        · exact Or.inl h3
        · exact Or.inr (Or.inr h3)

theorem storeVector_ok_eq {μ : Type} (dimensions : Nat) (store : MemStore μ)
    (id : String) (vector : List ℝ) (metadata : μ) (store2 : MemStore μ)
    (h : MemoryVectorStore.storeVector dimensions store id vector metadata = .ok store2) :
    store2 = jsMapSet store id (vector, metadata) := by
  rw [MemoryVectorStore.storeVector] at h
  by_cases hd : vector.length ≠ dimensions
  · rw [if_pos hd] at h; exact absurd h (by simp)
  · rw [if_neg hd] at h; exact (Except.ok.inj h).symm

/-- Every id stored by the insertion loop is either a chunk id of the
processed `(chunk, range)` pairs or was present before the loop ran. -/
theorem insertChunks_ids (dimensions : Nat) (embed : List Char → List ℝ)
    (fileName language now : String) :
    ∀ (cs : List (List Char)) (rs : List (Int × Int)) (store store2 : MemStore ChunkMetadata),
      insertChunks dimensions embed fileName language now cs rs store = .ok store2 →
      ∀ x ∈ MemoryVectorStore.getAllIds store2,
        x ∈ (cs.zip rs).map (fun p => mkChunkId fileName p.2.1 p.2.2)
          ∨ x ∈ MemoryVectorStore.getAllIds store := by
  intro cs
  induction cs with
  | nil =>
    intro rs store store2 h x hx
    rw [insertChunks] at h
    exact Or.inr ((Except.ok.inj h) ▸ hx)
  | cons c cs ih =>
    intro rs store store2 h x hx
    cases rs with
    | nil =>
      rw [insertChunks] at h
      exact absurd h (by simp)
    | cons r rs =>
      obtain ⟨s, e⟩ := r
      rw [insertChunks] at h
      cases hsv : MemoryVectorStore.storeVector dimensions store (mkChunkId fileName s e)
          (embed c) ⟨fileName, c, s, e, language, now⟩ with
      | error err =>
        rw [hsv] at h
        exact absurd h (by simp)
      | ok store3 =>
        rw [hsv] at h
        have hst : store3 = jsMapSet store (mkChunkId fileName s e)
            (embed c, ⟨fileName, c, s, e, language, now⟩) :=
          storeVector_ok_eq _ _ _ _ _ _ hsv
        rcases ih rs store3 store2 h x hx with h1 | h1
        · refine Or.inl ?_
          simp only [List.zip_cons_cons, List.map_cons, List.mem_cons]
          exact Or.inr h1
        · rw [hst] at h1
          rcases mem_getAllIds_jsMapSet store (mkChunkId fileName s e) _ x h1 with h2 | h2
          · refine Or.inl ?_
            simp only [List.zip_cons_cons, List.map_cons, List.mem_cons]
            exact Or.inl h2
          · exact Or.inr h2

/-- One unfolding step of the chunking loop, with the local bindings of the
source (`end`, the pushed chunk, the new `start`) expanded. -/
theorem splitLoop_succ (text : List Char) (chunkSize overlap start : Int)
    (acc : List (List Char)) (n : Nat) :
    splitLoop text chunkSize overlap start acc (n + 1)
      = if start < (text.length : Int) then
          if (text.length : Int) - (min (start + chunkSize) (text.length : Int) - overlap)
              < overlap then
            (true, acc ++ [jsSubstring text start (min (start + chunkSize) (text.length : Int))])
          else
            splitLoop text chunkSize overlap
              (min (start + chunkSize) (text.length : Int) - overlap)
              (acc ++ [jsSubstring text start (min (start + chunkSize) (text.length : Int))]) n
        else (true, acc) := rfl

theorem splitLoop_acc (text : List Char) (chunkSize overlap : Int) :
    ∀ (fuel : Nat) (start : Int) (acc : List (List Char)),
      ∃ ext, (splitLoop text chunkSize overlap start acc fuel).2 = acc ++ ext := by
  intro fuel
  induction fuel with
  | zero => exact fun start acc => ⟨[], by rw [splitLoop]; simp⟩
  | succ n ih =>
    intro start acc
    rw [splitLoop_succ]
    by_cases h1 : start < (text.length : Int)
    · rw [if_pos h1]
      by_cases h2 : (text.length : Int)
          - (min (start + chunkSize) (text.length : Int) - overlap) < overlap
      · rw [if_pos h2]
        exact ⟨[jsSubstring text start (min (start + chunkSize) (text.length : Int))], rfl⟩
      · rw [if_neg h2]
        obtain ⟨ext2, hext⟩ := ih (min (start + chunkSize) (text.length : Int) - overlap)
          (acc ++ [jsSubstring text start (min (start + chunkSize) (text.length : Int))])
        exact ⟨_, by rw [hext, List.append_assoc]⟩
    · rw [if_neg h1]
      exact ⟨[], by simp⟩

/-- When the chunking loop does exit on a nonempty text, it has emitted at
least one chunk. -/
theorem splitTextIntoChunks_true_ne_nil (text : List Char) (chunkSize overlap : Int)
    (fuel : Nat) (chunks : List (List Char)) (hpos : 0 < text.length)
    (h : splitTextIntoChunks text chunkSize overlap fuel = (true, chunks)) :
    chunks ≠ [] := by
  rw [splitTextIntoChunks] at h
  by_cases hle : (text.length : Int) ≤ chunkSize
  · rw [if_pos hle] at h
    injection h with h1 h2
    rw [← h2]
    simp
  · rw [if_neg hle] at h
    cases fuel with
    | zero =>
      rw [splitLoop] at h
      exact absurd h (by simp)
    | succ n =>
      rw [splitLoop_succ] at h
      have h1 : (0 : Int) < (text.length : Int) := by exact_mod_cast hpos
      rw [if_pos h1] at h
      by_cases h2 : (text.length : Int)
          - (min (0 + chunkSize) (text.length : Int) - overlap) < overlap
      · rw [if_pos h2] at h
        injection h with h3 h4
        rw [← h4]
        simp
      · rw [if_neg h2] at h
        obtain ⟨ext, hext⟩ := splitLoop_acc text chunkSize overlap n
          (min (0 + chunkSize) (text.length : Int) - overlap)
          ([] ++ [jsSubstring text 0 (min (0 + chunkSize) (text.length : Int))])
        have hc : chunks = ([] ++ [jsSubstring text 0 (min (0 + chunkSize)
            (text.length : Int))]) ++ ext := by
          rw [← hext, h]
        rw [hc]
        simp

/-- C3 counterexample: embed a 25-character document (file "f",
`chunkSize = 10`, `overlap = 0`), leaving the chunk id `doc:f:0-0` stored;
then embed the same file again with the 2-character text `"hi"`.  The
second call completes (it returns immediately, below the 10-character
minimum) and produces no chunks, yet the prefixed id of the first call is
still stored, so it corresponds to no chunk of the second call. -/
theorem embedDocument_stale_id_counterexample :
    embedDocument 1 10 0 5 exEmbed "ts" "t" [] "f" exText1 = some (.ok exStore1) ∧
      embedDocument 1 10 0 5 exEmbed "ts" "t" exStore1 "f" exText2 = some (.ok exStore1) ∧
      exText2.length < exText1.length ∧
      ¬ (∀ id ∈ MemoryVectorStore.getAllIds exStore1,
          jsStartsWith id ("doc:" ++ "f" ++ ":") = true → False) := by
  refine ⟨rfl, rfl, by decide, ?_⟩
  intro hclaim
  exact hclaim "doc:f:0-0" (by simp [MemoryVectorStore.getAllIds, exStore1]) (by decide)

/-- C3 (amended): when `embedDocument` completes on a text that reaches the
purge-and-embed path (length at least 10), every stored id carrying the
document's prefix `doc:<fileName>:` is a chunk id produced by this call:
the purge deletes every previously stored prefixed id before any new
vector is inserted. -/
theorem embedDocument_purges_stale_prefixed_ids (dimensions : Nat)
    (chunkSize overlap : Int) (fuel : Nat) (embed : List Char → List ℝ)
    (language now : String) (store store2 : MemStore ChunkMetadata)
    (fileName : String) (text : List Char)
    (hlen : ¬ (text.length : Int) < 10)
    (hok : embedDocument dimensions chunkSize overlap fuel embed language now
      store fileName text = some (.ok store2)) :
    ∀ id ∈ MemoryVectorStore.getAllIds store2,
      jsStartsWith id ("doc:" ++ fileName ++ ":") = true →
        id ∈ embedChunkIds chunkSize overlap fuel fileName text := by
  intro x hx hpfx
  rw [embedDocument, if_neg hlen] at hok
  cases hsplit : splitTextIntoChunks text chunkSize overlap fuel with
  | mk flag chunks =>
  rw [hsplit] at hok
  cases flag with
  | false =>
    exact absurd (show (none : Option (Except String (MemStore ChunkMetadata)))
      = some (.ok store2) from hok) (by simp)
  | true =>
    have hok2 : (if chunks.length = 0 then some (Except.ok store)
        else some (insertChunks dimensions embed fileName language now chunks
          (getLineRangesForChunks text overlap chunks)
          (purgeLoop ("doc:" ++ fileName ++ ":") (MemoryVectorStore.getAllIds store) store)))
        = some (Except.ok store2) := hok
    by_cases hnil : chunks.length = 0
    · exact absurd (List.length_eq_zero.1 hnil)
        (splitTextIntoChunks_true_ne_nil text chunkSize overlap fuel chunks (by omega) hsplit)
    · rw [if_neg hnil] at hok2
      have hins : insertChunks dimensions embed fileName language now chunks
          (getLineRangesForChunks text overlap chunks)
          (purgeLoop ("doc:" ++ fileName ++ ":") (MemoryVectorStore.getAllIds store) store)
          = .ok store2 := Option.some.inj hok2
      rcases insertChunks_ids dimensions embed fileName language now chunks
          (getLineRangesForChunks text overlap chunks) _ store2 hins x hx with h1 | h1
      · rw [embedChunkIds, hsplit]
        exact h1
      · obtain ⟨hmem, hnotin⟩ := purgeLoop_ids ("doc:" ++ fileName ++ ":")
          (MemoryVectorStore.getAllIds store) store x h1
        exact absurd hmem (hnotin hpfx)

/-- Third document text for the amended-claim witness: 12 characters. -/
def exText3 : List Char := List.replicate 12 'a'

/-- The store produced by embedding `exText3` (file "g", `chunkSize = 20`,
`overlap = 0`): one chunk on line 0. -/
def exStore3 : MemStore ChunkMetadata :=
  [("doc:g:0-0", [0], ⟨"g", exText3, 0, 0, "ts", "t"⟩)]

/-- C3 witness: a completed 12-character embed on an empty store leaves the
prefixed stored id `doc:g:0-0`, and it is this call's chunk id. -/
theorem embedDocument_purges_stale_prefixed_ids_witness :
    "doc:g:0-0" ∈ embedChunkIds 20 0 0 "g" exText3 :=
  embedDocument_purges_stale_prefixed_ids 1 20 0 0 exEmbed "ts" "t" [] exStore3 "g" exText3
    (by decide) rfl "doc:g:0-0" (by simp [MemoryVectorStore.getAllIds, exStore3]) (by decide)
